import Mathlib

/-!
# Verification of the goexif TIFF/EXIF decoder core

A shallow embedding of the binary decoding layer of the goexif repository
(packages `tiff`, `exif` and `mknote`), together with theorems settling the
frozen claims about it.

Byte buffers are `List Nat` (each element one byte, values below 256).
Machine arithmetic that can wrap in Go (the `uint32` product
`typeSize[t.Type] * t.Count`) is made explicit with `% 2^32`.
Go functions that can fail return a `DOut` value whose `err` constructor
carries the error site; a Go `panic` (from `panicOn`, `big.NewRat`, slice
out-of-range indexing) is the `panicked` outcome.
-/

set_option autoImplicit false

namespace Goexif

/-- Go `binary.ByteOrder`: the two byte orders a TIFF container can select. -/
inductive ByteOrder where
  | little
  | big
deriving Repr, DecidableEq

/-- Error sites of the decoders, one constructor per distinct Go error return.
`typecast` models `BadTypecastErr` (tiff/tag.go), carrying the tag type code
and the requested category. -/
inductive DErr where
  | tagIdRead
  | tagTypeRead
  | tagCountRead
  | tagValueRead
  | tagOffsetRead
  | dirCountRead
  | nextOffsetRead
  | byteOrderRead
  | markerRead
  | offsetRead
  | seekFailed
  | seekAfterEOF
  | streamEOF
  | typecast (tyCode : Nat) (toCat : Nat)
deriving Repr, DecidableEq

/-- Outcome of running a piece of Go code: normal result, error return, or
a runtime panic. -/
inductive DOut (α : Type) where
  | ok (a : α)
  | err (e : DErr)
  | panicked
deriving Repr, DecidableEq

/-- The byte at index `i` of a buffer (total; reads are guarded by explicit
length checks before this is used). -/
def byteAt (buf : List Nat) (i : Nat) : Nat := buf.getD i 0

/-- Assemble two bytes into a 16-bit value in the given byte order
(Go `order.Uint16`). -/
def u16 (o : ByteOrder) (b0 b1 : Nat) : Nat :=
  match o with
  | .big => b0 * 256 + b1
  | .little => b1 * 256 + b0

/-- Assemble four bytes into a 32-bit value in the given byte order
(Go `order.Uint32`). -/
def u32 (o : ByteOrder) (b0 b1 b2 b3 : Nat) : Nat :=
  match o with
  | .big => ((b0 * 256 + b1) * 256 + b2) * 256 + b3
  | .little => ((b3 * 256 + b2) * 256 + b1) * 256 + b0

/-- Assemble eight bytes into a 64-bit value in the given byte order
(Go `order.Uint64`, used for the bit pattern of a `float64`). -/
def u64 (o : ByteOrder) (b0 b1 b2 b3 b4 b5 b6 b7 : Nat) : Nat :=
  match o with
  | .big => ((u32 .big b0 b1 b2 b3) * 4294967296) + u32 .big b4 b5 b6 b7
  | .little => ((u32 .little b4 b5 b6 b7) * 4294967296) + u32 .little b0 b1 b2 b3

/-- Two's-complement reading of a byte as Go `int8`. -/
def toI8 (n : Nat) : Int :=
  if n < 128 then (n : Int) else (n : Int) - 256

/-- Two's-complement reading of a 16-bit value as Go `int16`. -/
def toI16 (n : Nat) : Int :=
  if n < 32768 then (n : Int) else (n : Int) - 65536

/-- Two's-complement reading of a 32-bit value as Go `int32`. -/
def toI32 (n : Nat) : Int :=
  if n < 2147483648 then (n : Int) else (n : Int) - 4294967296

/-- Sequential `binary.Read` of a `uint16` at cursor `pos`: succeeds iff two
bytes are available (Go `io.ReadFull` semantics inside `binary.Read`). -/
def readU16 (buf : List Nat) (pos : Nat) (o : ByteOrder) : Option Nat :=
  if pos + 2 ≤ buf.length then
    some (u16 o (byteAt buf pos) (byteAt buf (pos + 1)))
  else none

/-- Sequential `binary.Read` of a `uint32` at cursor `pos`: succeeds iff four
bytes are available. -/
def readU32 (buf : List Nat) (pos : Nat) (o : ByteOrder) : Option Nat :=
  if pos + 4 ≤ buf.length then
    some (u32 o (byteAt buf pos) (byteAt buf (pos + 1)) (byteAt buf (pos + 2))
      (byteAt buf (pos + 3)))
  else none

/-- `typeSize` from tiff/tag.go: byte width of each of the 12 data types.
A Go map lookup of a key outside 1..12 yields the zero value 0. -/
def typeSize (t : Nat) : Nat :=
  match t with
  | 1 => 1
  | 2 => 1
  | 3 => 2
  | 4 => 4
  | 5 => 8
  | 6 => 1
  | 7 => 1
  | 8 => 2
  | 9 => 4
  | 10 => 8
  | 11 => 4
  | 12 => 8
  | _ => 0

/-- `Tag` from tiff/tag.go: the parsed content of a TIFF IFD tag, including
the memoized converted values filled in by `convertVals`.  `floatVals` holds
the raw IEEE-754 bit patterns of the components (the numeric float semantics
play no role in any claim; what matters is which bytes are consumed and when
conversion fails). `strVal` holds the bytes of the Go string. -/
structure Tag where
  id : Nat
  type : Nat
  count : Nat
  val : List Nat
  valOffset : Nat
  order : ByteOrder
  intVals : List Int
  ratVals : List (Int × Int)
  floatVals : List Nat
  strVal : List Nat
deriving Repr, DecidableEq

/-- The `count`-iteration `binary.Read` loop of `convertVals`, reading one
`w`-byte group per component from `bytes.NewReader(t.Val)`: it succeeds iff
`c * w` bytes are available, and component `i` is decoded from the `i`-th
group by `f`. -/
def groupVals {α : Type} (w c : Nat) (l : List Nat) (f : List Nat → α) :
    Option (List α) :=
  if c * w ≤ l.length then
    some ((List.range c).map fun i => f ((l.drop (i * w)).take w))
  else none

/-- The byte at index `i` of one group. -/
def gByte (g : List Nat) (i : Nat) : Nat := g.getD i 0

/-- Read a 16-bit value from the front of a group. -/
def gU16 (o : ByteOrder) (g : List Nat) (k : Nat) : Nat :=
  u16 o (gByte g k) (gByte g (k + 1))

/-- Read a 32-bit value from a group starting at offset `k`. -/
def gU32 (o : ByteOrder) (g : List Nat) (k : Nat) : Nat :=
  u32 o (gByte g k) (gByte g (k + 1)) (gByte g (k + 2)) (gByte g (k + 3))

/-- Read a 64-bit value from the front of a group. -/
def gU64 (o : ByteOrder) (g : List Nat) : Nat :=
  u64 o (gByte g 0) (gByte g 1) (gByte g 2) (gByte g 3) (gByte g 4) (gByte g 5)
    (gByte g 6) (gByte g 7)

/-- `(*Tag).convertVals` from tiff/tag.go (lines 134-227): decode the raw
value bytes per the tag type.  In that variant every read error inside the
loops goes through `panicOn`, so the result is `none` exactly when the Go
code panics (the value bytes are too short for `Count` components).  ASCII
(type 2) stores the value minus its final byte when nonempty and never
fails; types outside 1..12 convert nothing and succeed. -/
def convertVals (t : Tag) : Option Tag :=
  match t.type with
  | 2 => some { t with strVal := if t.val.length > 0 then t.val.dropLast else t.strVal }
  | 1 => (groupVals 1 t.count t.val fun g => (gByte g 0 : Int)).map
      fun vs => { t with intVals := vs }
  | 3 => (groupVals 2 t.count t.val fun g => (gU16 t.order g 0 : Int)).map
      fun vs => { t with intVals := vs }
  | 4 => (groupVals 4 t.count t.val fun g => (gU32 t.order g 0 : Int)).map
      fun vs => { t with intVals := vs }
  | 6 => (groupVals 1 t.count t.val fun g => toI8 (gByte g 0)).map
      fun vs => { t with intVals := vs }
  | 8 => (groupVals 2 t.count t.val fun g => toI16 (gU16 t.order g 0)).map
      fun vs => { t with intVals := vs }
  | 9 => (groupVals 4 t.count t.val fun g => toI32 (gU32 t.order g 0)).map
      fun vs => { t with intVals := vs }
  | 5 => (groupVals 8 t.count t.val fun g =>
        ((gU32 t.order g 0 : Int), (gU32 t.order g 4 : Int))).map
      fun vs => { t with ratVals := vs }
  | 10 => (groupVals 8 t.count t.val fun g =>
        (toI32 (gU32 t.order g 0), toI32 (gU32 t.order g 4))).map
      fun vs => { t with ratVals := vs }
  | 11 => (groupVals 4 t.count t.val fun g => gU32 t.order g 0).map
      fun vs => { t with floatVals := vs }
  | 12 => (groupVals 8 t.count t.val fun g => gU64 t.order g).map
      fun vs => { t with floatVals := vs }
  | _ => some t

/-- `DecodeTag` from tiff/tag.go (lines 89-132): reads the 12-byte record
(2-byte id, 2-byte type, 4-byte count, 4-byte value-or-offset) at cursor
`pos`.  `valLen` is the Go `uint32` product `typeSize[t.Type] * t.Count`,
which wraps modulo 2^32.  If `valLen > 4`, the error of the `binary.Read`
into `t.ValOffset` is discarded (a truncated record leaves `ValOffset` 0 and
the cursor at end of buffer) and `r.ReadAt` must return exactly `valLen`
bytes at the absolute offset; otherwise the value is read inline from the
record followed by `4 - valLen` padding bytes.  The converted tag and the new
cursor position are returned. -/
def DecodeTag (buf : List Nat) (pos : Nat) (o : ByteOrder) : DOut (Tag × Nat) :=
  match readU16 buf pos o with
  | none => .err .tagIdRead
  | some i =>
    match readU16 buf (pos + 2) o with
    | none => .err .tagTypeRead
    | some ty =>
      match readU32 buf (pos + 4) o with
      | none => .err .tagCountRead
      | some ct =>
        let valLen := typeSize ty * ct % 4294967296
        if 4 < valLen then
          let voff := (readU32 buf (pos + 8) o).getD 0
          let posN := if pos + 12 ≤ buf.length then pos + 12 else buf.length
          if voff + valLen ≤ buf.length then
            let t0 : Tag :=
              { id := i, type := ty, count := ct,
                val := (buf.drop voff).take valLen, valOffset := voff,
                order := o, intVals := [], ratVals := [], floatVals := [],
                strVal := [] }
            match convertVals t0 with
            | none => .panicked
            | some t => .ok (t, posN)
          else .err .tagValueRead
        else
          if pos + 12 ≤ buf.length then
            let t0 : Tag :=
              { id := i, type := ty, count := ct,
                val := (buf.drop (pos + 8)).take valLen, valOffset := 0,
                order := o, intVals := [], ratVals := [], floatVals := [],
                strVal := [] }
            match convertVals t0 with
            | none => .panicked
            | some t => .ok (t, pos + 12)
          else .err .tagOffsetRead

/-- `Dir` from tiff/tiff.go: the parsed content of one IFD. -/
structure Dir where
  tags : List Tag
deriving Repr, DecidableEq

/-- The tag-loading loop of `DecodeDir` (tiff/tiff.go lines 141-147): decode
`n` consecutive tags starting at cursor `pos`; the first failure (or panic)
aborts the whole sequence. -/
def decodeTagSeq (buf : List Nat) (o : ByteOrder) : Nat → Nat → DOut (List Tag × Nat)
  | 0, pos => .ok ([], pos)
  | n + 1, pos =>
    match DecodeTag buf pos o with
    | .err e => .err e
    | .panicked => .panicked
    | .ok (t, p) =>
      match decodeTagSeq buf o n p with
      | .err e => .err e
      | .panicked => .panicked
      | .ok (ts, q) => .ok (t :: ts, q)

/-- `DecodeDir` from tiff/tiff.go (lines 130-156): read a signed 2-byte tag
count, decode that many tags in order (a negative count runs the loop zero
times), then read the signed 4-byte offset of the next IFD.  Returns the
directory, the next offset and the new cursor position. -/
def DecodeDir (buf : List Nat) (pos : Nat) (o : ByteOrder) :
    DOut (Dir × Int × Nat) :=
  match readU16 buf pos o with
  | none => .err .dirCountRead
  | some nraw =>
    match decodeTagSeq buf o (toI16 nraw).toNat (pos + 2) with
    | .err e => .err e
    | .panicked => .panicked
    | .ok (ts, p) =>
      match readU32 buf p o with
      | none => .err .nextOffsetRead
      | some offRaw => .ok (⟨ts⟩, toI32 offRaw, p + 4)

/-- One iteration of the IFD-chain loop in `Decode` (tiff/tiff.go lines
91-108): seek to the (attacker-controlled) offset — a negative offset makes
`Seek` fail — error out if the cursor is at or past end of buffer
(`buf.Len() == 0`), then decode the directory there, yielding it and the
next offset. -/
def ifdStep (data : List Nat) (o : ByteOrder) (offset : Int) : DOut (Dir × Int) :=
  if offset < 0 then .err .seekFailed
  else if data.length - offset.toNat = 0 then .err .seekAfterEOF
  else
    match DecodeDir data offset.toNat o with
    | .err e => .err e
    | .panicked => .panicked
    | .ok (d, next, _) => .ok (d, next)

/-- The `for offset != 0` loop of `Decode`, instrumented with fuel: `none`
means the loop was still running after `fuel` iterations.  The Go loop has
no bound of its own, so non-termination on some input shows as
`∀ fuel, runIFDs ... = none`. -/
def runIFDs (data : List Nat) (o : ByteOrder) : Nat → Int → Option (DOut (List Dir))
  | fuel, offset =>
    if offset = 0 then some (.ok [])
    else
      match fuel with
      | 0 => none
      | f + 1 =>
        match ifdStep data o offset with
        | .err e => some (.err e)
        | .panicked => some (.panicked)
        | .ok (d, next) =>
          match runIFDs data o f next with
          | none => none
          | some (.err e) => some (.err e)
          | some (.panicked) => some (.panicked)
          | some (.ok ds) => some (.ok (d :: ds))

/-- `Decode` from tiff/tiff.go (lines 51-111): check the 2-byte byte-order
marker (`II`/`MM`), the 0x002A magic value, read the offset of the first
IFD, then follow the next-IFD chain.  Fuel-instrumented like `runIFDs`. -/
def Decode (data : List Nat) (fuel : Nat) : Option (DOut (ByteOrder × List Dir)) :=
  if data.length < 2 then some (.err .byteOrderRead)
  else
    let o? : Option ByteOrder :=
      if byteAt data 0 = 0x49 ∧ byteAt data 1 = 0x49 then some .little
      else if byteAt data 0 = 0x4D ∧ byteAt data 1 = 0x4D then some .big
      else none
    match o? with
    | none => some (.err .byteOrderRead)
    | some o =>
      match readU16 data 2 o with
      | none => some (.err .markerRead)
      | some sp =>
        if sp ≠ 0x2A then some (.err .markerRead)
        else
          match readU32 data 4 o with
          | none => some (.err .offsetRead)
          | some offRaw =>
            match runIFDs data o fuel (toI32 offRaw) with
            | none => none
            | some (.err e) => some (.err e)
            | some (.panicked) => some (.panicked)
            | some (.ok ds) => some (.ok (o, ds))

/-- `TypeCategory` codes from tiff/tag.go. -/
inductive TypeCategory where
  | intVal
  | floatVal
  | ratVal
  | stringVal
  | undefVal
  | otherVal
deriving Repr, DecidableEq

/-- `(*Tag).TypeCategory` from tiff/tag.go (lines 624-638). -/
def typeCategory (ty : Nat) : TypeCategory :=
  match ty with
  | 1 => .intVal
  | 3 => .intVal
  | 4 => .intVal
  | 6 => .intVal
  | 8 => .intVal
  | 9 => .intVal
  | 5 => .ratVal
  | 10 => .ratVal
  | 11 => .floatVal
  | 12 => .floatVal
  | 2 => .stringVal
  | 7 => .undefVal
  | _ => .otherVal

/-- `(*Tag).Rat2` from tiff/tag.go (lines 658-663): a non-rational tag gets
a `BadTypecastErr`; an in-range component is returned exactly as stored
(numerator, denominator), unreduced; an out-of-range index panics
(Go slice index out of range on `t.ratVals[i]`). -/
def Rat2 (t : Tag) (i : Nat) : DOut (Int × Int) :=
  if typeCategory t.type ≠ .ratVal then .err (.typecast t.type 2)
  else
    match t.ratVals.get? i with
    | none => .panicked
    | some nd => .ok nd

/-- Go `big.NewRat`: panics (`division by zero`) on a zero denominator,
otherwise produces the reduced fraction. -/
def bigNewRat (n d : Int) : DOut Rat :=
  if d = 0 then .panicked else .ok (Rat.divInt n d)

/-- `(*Tag).Rat` from tiff/tag.go (lines 647-653): propagate the `Rat2`
error, otherwise hand the stored pair to `big.NewRat`. -/
def TagRat (t : Tag) (i : Nat) : DOut Rat :=
  match Rat2 t i with
  | .err e => .err e
  | .panicked => .panicked
  | .ok (n, d) => bigNewRat n d

/-- Go `unicode.IsPrint` restricted to one byte read as a rune (Latin-1
range): ASCII space through tilde, plus the Latin-1 letters, digits,
punctuation and symbols 0xA1-0xFF except the soft hyphen 0xAD; controls,
DEL, 0x80-0x9F and NBSP are not printable. -/
def isPrint (b : Nat) : Bool :=
  (0x20 ≤ b ∧ b ≤ 0x7E) ∨ (0xA1 ≤ b ∧ b ≤ 0xFF ∧ b ≠ 0xAD)

/-- Whether `b` is a UTF-8 continuation byte. -/
def utf8Cont (b : Nat) : Bool := 0x80 ≤ b ∧ b ≤ 0xBF

/-- Accepted range of the second byte of a 3-byte UTF-8 sequence headed by
`b0` (surrogates and overlong encodings excluded, as in Go `utf8`). -/
def utf8Accept2 (b0 b1 : Nat) : Bool :=
  if b0 = 0xE0 then 0xA0 ≤ b1 ∧ b1 ≤ 0xBF
  else if b0 = 0xED then 0x80 ≤ b1 ∧ b1 ≤ 0x9F
  else utf8Cont b1

/-- Accepted range of the second byte of a 4-byte UTF-8 sequence headed by
`b0` (values above U+10FFFF and overlong encodings excluded). -/
def utf8Accept3 (b0 b1 : Nat) : Bool :=
  if b0 = 0xF0 then 0x90 ≤ b1 ∧ b1 ≤ 0xBF
  else if b0 = 0xF4 then 0x80 ≤ b1 ∧ b1 ≤ 0x8F
  else utf8Cont b1

/-- Go `utf8.Valid` on a byte list: standard UTF-8 acceptance with the Go
restrictions (no overlongs, no surrogates, max U+10FFFF). -/
def utf8Valid : List Nat → Bool
  | [] => true
  | b0 :: rest =>
    if b0 ≤ 0x7F then utf8Valid rest
    else if b0 < 0xC2 then false
    else
      match rest with
      | [] => false
      | b1 :: rest1 =>
        if b0 ≤ 0xDF then utf8Cont b1 && utf8Valid rest1
        else
          match rest1 with
          | [] => false
          | b2 :: rest2 =>
            if b0 ≤ 0xEF then utf8Accept2 b0 b1 && utf8Cont b2 && utf8Valid rest2
            else
              match rest2 with
              | [] => false
              | b3 :: rest3 =>
                if b0 ≤ 0xF4 then
                  utf8Accept3 b0 b1 && utf8Cont b2 && utf8Cont b3 && utf8Valid rest3
                else false

/-- `nullString` from tiff/tag.go (lines 729-743): wrap the printable bytes
of the input in double quotes; if the wrapped result is not valid UTF-8,
fall back to an empty quoted string. -/
def nullString (ins : List Nat) : List Nat :=
  let rvb := 0x22 :: (ins.filter isPrint ++ [0x22])
  if utf8Valid rvb then rvb else [0x22, 0x22]

/-- The marker-search loop of `newAppSec` (exif/exif.go lines 320-330) on
the remaining byte stream: `ReadByte` an element (EOF returns its error),
then `Peek(1)` whose error is discarded; the condition
`b == 0xFF && n[0] == marker` indexes the peeked slice, so a stream that
ends right after a 0xFF byte panics with an index out of range.  On a match
the marker byte is consumed and the rest of the stream is returned. -/
def appSecSearch (marker : Nat) : List Nat → DOut (List Nat)
  | [] => .err .streamEOF
  | b :: rest =>
    match rest with
    | [] =>
      if b = 0xFF then .panicked
      else .err .streamEOF
    | n0 :: rest1 =>
      if b = 0xFF ∧ n0 = marker then .ok rest1
      else appSecSearch marker rest

/-- Whether the stream contains an adjacent pair `0xFF, marker` (the pattern
the `newAppSec` loop searches for). -/
def hasMarkerPair (marker : Nat) : List Nat → Bool
  | a :: b :: r => (a = 0xFF ∧ b = marker) || hasMarkerPair marker (b :: r)
  | _ => false

/-- The byte string `Nikon\x00\x01\x00` that selects the Nikon type-1 branch
in `nikonV3.Parse` (mknote/mknote.go line 59). -/
def nikon1Sig : List Nat := [0x4E, 0x69, 0x6B, 0x6F, 0x6E, 0x00, 0x01, 0x00]

/-- The byte string `Nikon\x00\x02` that selects the Nikon type-2/3 branch
in `nikonV3.Parse` (mknote/mknote.go line 70). -/
def nikon2Sig : List Nat := [0x4E, 0x69, 0x6B, 0x6F, 0x6E, 0x00, 0x02]

/-- The big-endian nested TIFF marker `MM\x00*` (mknote/mknote.go line 72). -/
def mmSig : List Nat := [0x4D, 0x4D, 0x00, 0x2A]

/-- The little-endian nested TIFF marker `II*\x00` (mknote/mknote.go line 73). -/
def iiSig : List Nat := [0x49, 0x49, 0x2A, 0x00]

/-- Go slice expression `l[lo:hi]`: panics when `hi` exceeds the slice
capacity (here its length) or `lo > hi`. -/
def goSlice (l : List Nat) (lo hi : Nat) : DOut (List Nat) :=
  if lo ≤ hi ∧ hi ≤ l.length then .ok ((l.drop lo).take (hi - lo))
  else .panicked

/-- Which branch of `nikonV3.Parse` a MakerNote value selects. -/
inductive NikonBranch where
  | nikon1
  | nikon3
  | nikonV2Unimplemented
  | unrecognized
deriving Repr, DecidableEq

/-- The signature dispatch of `nikonV3.Parse` (mknote/mknote.go lines
59-87) on the MakerNote tag value `m.Val`: compare `m.Val[:8]` against
`Nikon\x00\x01\x00`, else `m.Val[:7]` against `Nikon\x00\x02` and then
`m.Val[10:14]` against the nested TIFF markers.  Every slice expression is
evaluated before any length check, so it can panic. -/
def nikonV3Dispatch (val : List Nat) : DOut NikonBranch :=
  match goSlice val 0 8 with
  | .err e => .err e
  | .panicked => .panicked
  | .ok v8 =>
    if v8 = nikon1Sig then .ok .nikon1
    else
      match goSlice val 0 7 with
      | .err e => .err e
      | .panicked => .panicked
      | .ok v7 =>
        if v7 = nikon2Sig then
          match goSlice val 10 14 with
          | .err e => .err e
          | .panicked => .panicked
          | .ok v4 =>
            if v4 = mmSig ∨ v4 = iiSig then .ok .nikon3
            else .ok .nikonV2Unimplemented
        else .ok .unrecognized

/-- A field document: the semantic-name → tag mapping built by the resolver.
Lookup takes the earliest binding for a name. -/
structure ExifDoc where
  fields : List (String × Tag)
deriving Repr, DecidableEq

/-- Look up a field by name (first binding wins). -/
def docGet (x : ExifDoc) (name : String) : Option Tag :=
  x.fields.lookup name

/-- Modelled from the spec (§3 MakerNoteParser, §4.8): a maker-note parser
is a stateless function of the document that either fails or produces
vendor tags to add.  The concrete parsers under src (`canon.Parse`,
`nikonV3.Parse` in mknote/mknote.go) have this shape; their caller — the
registry dispatch and `Exif.LoadTags` in the exif package — is not under
src, only the parsers themselves are. -/
def MakerParser : Type := ExifDoc → Except DErr (List (String × Tag))

/-- Modelled from the spec (§4.8): adding vendor tags to a document; new
bindings are appended, so every already-resolved field keeps its binding
(the spec: a parser "may add additional Tags" and "never reduces
already-resolved standard fields"). -/
def addFields (x : ExifDoc) (new : List (String × Tag)) : ExifDoc :=
  ⟨x.fields ++ new⟩

/-- Modelled from the spec (§4.8, §7 VendorParseError): the maker-note
registry tries each registered parser; "Any vendor parser failure is
absorbed: it never aborts overall decode" — an `Except.error` result
contributes nothing and the run continues. -/
def runParsers (ps : List MakerParser) (x : ExifDoc) : ExifDoc :=
  match ps with
  | [] => x
  | p :: rest =>
    match p x with
    | .error _ => runParsers rest x
    | .ok new => runParsers rest (addFields x new)

/-- The claim wording for the ASCII stored string, written from the spec:
"the raw value bytes with one trailing NUL byte removed" — removal happens
only when a trailing NUL is present. -/
def specStripTrailingNul (l : List Nat) : List Nat :=
  if l.getLast? = some 0 then l.dropLast else l

/-- A tag whose value conversion succeeds keeps its raw bytes and value
offset untouched: `convertVals` only fills in the memoized value lists. -/
theorem convertVals_preserves (t t2 : Tag) (h : convertVals t = some t2) :
    t2.val = t.val ∧ t2.valOffset = t.valOffset ∧ t2.id = t.id ∧
    t2.type = t.type ∧ t2.count = t.count := by
  unfold convertVals at h
  split at h <;>
    first
      | (injection h with h2; subst h2; exact ⟨rfl, rfl, rfl, rfl, rfl⟩)
      | (rcases Option.map_eq_some'.mp h with ⟨vs, hvs, h2⟩
         subst h2
         exact ⟨rfl, rfl, rfl, rfl, rfl⟩)

/-- If the first `i` tags of a directory decode and the next one fails, the
whole `k`-tag loop fails with that error, for any declared count `k > i`. -/
theorem decodeTagSeq_err_of_step (buf : List Nat) (o : ByteOrder) :
    ∀ (i k pos : Nat) (ts : List Tag) (p : Nat) (e : DErr),
      i < k →
      decodeTagSeq buf o i pos = .ok (ts, p) →
      DecodeTag buf p o = .err e →
      decodeTagSeq buf o k pos = .err e := by
  intro i
  induction i with
  | zero =>
    intro k pos ts p e hik hseq hfail
    obtain ⟨k2, rfl⟩ : ∃ k2, k = k2 + 1 := ⟨k - 1, by omega⟩
    unfold decodeTagSeq at hseq
    simp only [DOut.ok.injEq, Prod.mk.injEq] at hseq
    obtain ⟨-, hp⟩ := hseq
    subst hp
    unfold decodeTagSeq
    simp only [hfail]
  | succ j ih =>
    intro k pos ts p e hik hseq hfail
    obtain ⟨k2, rfl⟩ : ∃ k2, k = k2 + 1 := ⟨k - 1, by omega⟩
    unfold decodeTagSeq at hseq ⊢
    split at hseq
    · simp at hseq
    · simp at hseq
    · rename_i t1 p1 h1
      split at hseq
      · simp at hseq
      · simp at hseq
      · rename_i ts1 q1 h2
        simp only [DOut.ok.injEq, Prod.mk.injEq] at hseq
        obtain ⟨-, hq⟩ := hseq
        have h3 : decodeTagSeq buf o k2 p1 = .err e :=
          ih k2 p1 ts1 q1 e (by omega) h2 (by rw [hq]; exact hfail)
        simp only [h1, h3]

/-- An earlier binding survives appending further bindings. -/
theorem lookup_append_left {l l2 : List (String × Tag)} {name : String} {t : Tag}
    (h : l.lookup name = some t) : (l ++ l2).lookup name = some t := by
  induction l with
  | nil => simp [List.lookup] at h
  | cons a l1 ih =>
    rw [List.lookup] at h
    rw [show (a :: l1) ++ l2 = a :: (l1 ++ l2) from rfl, List.lookup]
    split at h
    · exact h
    · exact ih h

/-- C1: the claim demands overflow-checked `width(type) * count` with an
`InvalidCount` failure, but `DecodeTag` (tiff/tag.go line 108) multiplies in
wrapping `uint32` arithmetic and has no count check at all.  For a short
(type 3) tag with count 0x80000000 the product wraps to byte length 0, the
length check is passed silently, and the conversion loop panics through
`panicOn` instead of returning an error.  For the observed adversarial
count 0xFFFFFFFF the decode does fail, but only with the generic value-read
error of the oversized `ReadAt`, not an invalid-count error — the repo's own
test `TestMaxUint32CountError` expects an `invalid Count offset` error that
no code under src produces. -/
theorem claim1_count_overflow_not_checked :
    typeSize 3 * 0x80000000 % 4294967296 = 0 ∧
    DecodeTag [0x01, 0, 0x03, 0, 0, 0, 0, 0x80, 0xAA, 0xBB, 0xCC, 0xDD] 0
      .little = .panicked ∧
    DecodeTag [0x01, 0, 0x03, 0, 0xFF, 0xFF, 0xFF, 0xFF, 0, 0, 0, 0] 0
      .little = .err .tagValueRead :=
  ⟨by decide, by decide, by decide⟩

/-- C2: the claim (and the repo's test `TestZeroLengthTagError`, which
expects a `zero length tag value` error) demands that a computed byte
length of exactly 0 fail with `EmptyValue`, but `DecodeTag` has no such
check: a byte-type tag with count 0 decodes successfully to an empty value,
leaving the cursor-stall hazard in place. -/
theorem claim2_zero_byte_length_decodes_ok :
    DecodeTag [0x01, 0, 0x01, 0, 0, 0, 0, 0, 0xAA, 0xBB, 0xCC, 0xDD] 0 .little =
      .ok ({ id := 1, type := 1, count := 0, val := [], valOffset := 0,
             order := .little, intVals := [], ratVals := [], floatVals := [],
             strVal := [] }, 12) := by
  decide

/-- A 14-byte little-endian TIFF whose single IFD holds zero tags and lists
itself (offset 8) as the next directory. -/
def cyclicTiff : List Nat :=
  [0x49, 0x49, 0x2A, 0, 8, 0, 0, 0, 0, 0, 8, 0, 0, 0]

/-- One pass of the IFD loop over `cyclicTiff` reproduces offset 8. -/
theorem cyclicTiff_step : ifdStep cyclicTiff .little 8 = .ok (⟨[]⟩, 8) := by
  decide

/-- The IFD loop over `cyclicTiff` runs out of any amount of fuel. -/
theorem runIFDs_cyclicTiff (f : Nat) :
    runIFDs cyclicTiff .little f 8 = none := by
  induction f with
  | zero => rfl
  | succ n ih =>
    rw [runIFDs]
    simp only [cyclicTiff_step, ih]
    rfl

/-- C3: the claim demands a bound on directory traversal so that `Decode`
terminates on every input, but the `for offset != 0` loop (tiff/tiff.go
lines 91-108) tracks no visited offsets and no count: on a buffer whose
IFD lists itself as the next directory, the loop revisits offset 8 forever
and `Decode` never terminates (the fuel-instrumented run is `none` for
every fuel). -/
theorem claim3_cyclic_chain_never_terminates (fuel : Nat) :
    Decode cyclicTiff fuel = none := by
  have h : Decode cyclicTiff fuel =
      (match runIFDs cyclicTiff .little fuel 8 with
       | none => none
       | some (.err e) => some (.err e)
       | some (.panicked) => some (.panicked)
       | some (.ok ds) => some (.ok (.little, ds))) := rfl
  rw [h, runIFDs_cyclicTiff]

/-- A 20-byte little-endian buffer holding one unsigned-rational tag whose
single component is the stored pair 1/0. -/
def c4buf : List Nat :=
  [0x01, 0, 0x05, 0, 0x01, 0, 0, 0, 0x0C, 0, 0, 0, 0x01, 0, 0, 0, 0, 0, 0, 0]

/-- The tag decoded from `c4buf`: one rational component with denominator 0
stored as-is. -/
def c4tag : Tag :=
  { id := 1, type := 5, count := 1, val := [1, 0, 0, 0, 0, 0, 0, 0],
    valOffset := 12, order := .little, intVals := [], ratVals := [(1, 0)],
    floatVals := [], strVal := [] }

/-- C4 counterexample: a decoded rational tag with a zero denominator makes
`Rat(0)` panic (`big.NewRat` panics on a zero denominator, as the method's
own comment documents), not fail with a `DivideByZero` error as the claim
states. -/
theorem claim4_counterexample :
    DecodeTag c4buf 0 .little = .ok (c4tag, 12) ∧
    TagRat c4tag 0 = .panicked := by
  exact ⟨by decide, by decide⟩

/-- C4 as amended: for a rational-category tag and an in-range component,
`Rat2` exposes the stored numerator/denominator pair as-is and without
error; `Rat` panics when the stored denominator is 0 and otherwise returns
the reduced fraction. -/
theorem claim4_rat_zero_denominator_panics (t : Tag) (i : Nat) (n d : Int)
    (hcat : typeCategory t.type = .ratVal)
    (hnd : t.ratVals.get? i = some (n, d)) :
    Rat2 t i = .ok (n, d) ∧
    (d = 0 → TagRat t i = .panicked) ∧
    (d ≠ 0 → TagRat t i = .ok (Rat.divInt n d)) := by
  have h2 : Rat2 t i = .ok (n, d) := by
    unfold Rat2
    rw [if_neg (by simp [hcat]), hnd]
  refine ⟨h2, ?_, ?_⟩
  · intro hd
    unfold TagRat
    rw [h2]
    show bigNewRat n d = DOut.panicked
    unfold bigNewRat
    rw [if_pos hd]
  · intro hd
    unfold TagRat
    rw [h2]
    show bigNewRat n d = DOut.ok (Rat.divInt n d)
    unfold bigNewRat
    rw [if_neg hd]

/-- C4 witness: the amended statement evaluated on the decoded 1/0 tag. -/
theorem claim4_witness :
    Rat2 c4tag 0 = .ok (1, 0) ∧ TagRat c4tag 0 = .panicked :=
  ⟨(claim4_rat_zero_denominator_panics c4tag 0 1 0 (by decide) (by decide)).1,
   (claim4_rat_zero_denominator_panics c4tag 0 1 0 (by decide) (by decide)).2.1 rfl⟩

/-- C6: modelled from the spec (§4.8, §7): the maker-note registry absorbs
every vendor parser failure — `runParsers` is total, so no parser error
(such as the `DecodeDir` failures returned by `canon.Parse` and
`nikonV3.Parse`) reaches the caller — and a field already resolved in the
document is still bound, to the same tag, after every registered parser has
run. -/
theorem claim6_registry_absorbs_and_preserves (ps : List MakerParser)
    (x : ExifDoc) (name : String) (t : Tag)
    (h : docGet x name = some t) :
    docGet (runParsers ps x) name = some t := by
  induction ps generalizing x with
  | nil => exact h
  | cons p rest ih =>
    unfold runParsers
    cases hp : p x with
    | error e => exact ih x h
    | ok new => exact ih (addFields x new) (lookup_append_left h)

/-- A minimal tag used to populate concrete documents. -/
def dummyTag : Tag :=
  { id := 0, type := 1, count := 0, val := [], valOffset := 0,
    order := .little, intVals := [], ratVals := [], floatVals := [],
    strVal := [] }

/-- C6 witness: a document holding a resolved `Make` field keeps it after a
registry run in which the first parser fails outright and the second adds a
vendor tag. -/
theorem claim6_witness :
    docGet
      (runParsers
        [fun _ => .error .tagValueRead,
         fun _ => .ok [("Canon.UnknownField", dummyTag)]]
        ⟨[("Make", dummyTag)]⟩)
      "Make" = some dummyTag :=
  claim6_registry_absorbs_and_preserves _ ⟨[("Make", dummyTag)]⟩ "Make" dummyTag rfl

/-- C7: the first tag-decode failure inside `DecodeDir` aborts the whole
directory decode with that same error: if the declared count is `k`, the
first `i < k` tags decode, and decoding the next tag fails, `DecodeDir`
returns the error and never a partially filled directory. -/
theorem claim7_tag_failure_aborts_dir (buf : List Nat) (o : ByteOrder)
    (pos nraw i : Nat) (ts : List Tag) (p : Nat) (e : DErr)
    (hn : readU16 buf pos o = some nraw)
    (hi : i < (toI16 nraw).toNat)
    (hseq : decodeTagSeq buf o i (pos + 2) = .ok (ts, p))
    (hfail : DecodeTag buf p o = .err e) :
    DecodeDir buf pos o = .err e := by
  unfold DecodeDir
  rw [hn]
  simp only [decodeTagSeq_err_of_step buf o i ((toI16 nraw).toNat) (pos + 2)
    ts p e hi hseq hfail]

/-- C7 witness: a directory declaring one tag over a 2-byte buffer fails
with the id-read error of its first (truncated) tag. -/
theorem claim7_witness : DecodeDir [0x01, 0x00] 0 .little = .err .tagIdRead :=
  claim7_tag_failure_aborts_dir [0x01, 0x00] .little 0 1 0 [] 2 .tagIdRead
    (by decide) (by decide) (by decide) (by decide)

/-- C5: value acquisition in `DecodeTag` over a full 12-byte record.  When
the computed byte length is at most 4, a successfully decoded tag carries
exactly the record's own value bytes (the `valLen` bytes following the
count field) and a zero value offset — no absolute-offset read happens.
When the byte length exceeds 4, the last 4 record bytes are an absolute
offset: if `offset + byteLength` exceeds the buffer the decode fails with
the value-read error (never a partial value), and on success the tag
carries exactly the `byteLength` bytes at that offset. -/
theorem claim5_inline_and_offset_value (buf : List Nat) (pos : Nat)
    (o : ByteOrder) (ty ct : Nat)
    (hrec : pos + 12 ≤ buf.length)
    (hty : readU16 buf (pos + 2) o = some ty)
    (hct : readU32 buf (pos + 4) o = some ct) :
    (typeSize ty * ct % 4294967296 ≤ 4 →
      ∀ t p2, DecodeTag buf pos o = .ok (t, p2) →
        t.val = (buf.drop (pos + 8)).take (typeSize ty * ct % 4294967296) ∧
        t.valOffset = 0 ∧ p2 = pos + 12) ∧
    (∀ voff, 4 < typeSize ty * ct % 4294967296 →
      readU32 buf (pos + 8) o = some voff →
      (buf.length < voff + typeSize ty * ct % 4294967296 →
        DecodeTag buf pos o = .err .tagValueRead) ∧
      (voff + typeSize ty * ct % 4294967296 ≤ buf.length →
        ∀ t p2, DecodeTag buf pos o = .ok (t, p2) →
          t.val = (buf.drop voff).take (typeSize ty * ct % 4294967296) ∧
          t.valOffset = voff ∧ p2 = pos + 12)) := by
  have hid : readU16 buf pos o =
      some (u16 o (byteAt buf pos) (byteAt buf (pos + 1))) := by
    unfold readU16
    rw [if_pos (by omega)]
  constructor
  · intro hle t p2 hdec
    unfold DecodeTag at hdec
    rw [hid] at hdec
    simp only [hty, hct] at hdec
    rw [if_neg (by omega)] at hdec
    rw [if_pos hrec] at hdec
    split at hdec
    · simp at hdec
    · rename_i t2 hcv
      simp only [DOut.ok.injEq, Prod.mk.injEq] at hdec
      obtain ⟨ht, hp⟩ := hdec
      obtain ⟨hval, hvo, -, -, -⟩ := convertVals_preserves _ _ hcv
      rw [← ht]
      exact ⟨hval, hvo, hp.symm⟩
  · intro voff hgt hvo
    have hgetd : (readU32 buf (pos + 8) o).getD 0 = voff := by rw [hvo]; rfl
    constructor
    · intro hover
      unfold DecodeTag
      rw [hid]
      simp only [hty, hct]
      rw [if_pos hgt, hgetd]
      rw [if_neg (by omega)]
    · intro hin t p2 hdec
      unfold DecodeTag at hdec
      rw [hid] at hdec
      simp only [hty, hct] at hdec
      rw [if_pos hgt, hgetd] at hdec
      rw [if_pos hin] at hdec
      rw [if_pos hrec] at hdec
      split at hdec
      · simp at hdec
      · rename_i t2 hcv
        simp only [DOut.ok.injEq, Prod.mk.injEq] at hdec
        obtain ⟨ht, hp⟩ := hdec
        obtain ⟨hval, hvo2, -, -, -⟩ := convertVals_preserves _ _ hcv
        rw [← ht]
        exact ⟨hval, hvo2, hp.symm⟩

/-- C5 witness: the theorem applied to a concrete inline-value record and to
a concrete record whose declared 20-byte remote value overruns the buffer. -/
theorem claim5_witness :
    ({ id := 1, type := 2, count := 3, val := [0x41, 0x42, 0x43],
       valOffset := 0, order := .big, intVals := [], ratVals := [],
       floatVals := [], strVal := [0x41, 0x42] } : Tag).val =
        (([0, 1, 0, 2, 0, 0, 0, 3, 0x41, 0x42, 0x43, 0xFF] : List Nat).drop 8).take
          (typeSize 2 * 3 % 4294967296) ∧
    DecodeTag [0, 1, 0, 1, 0, 0, 0, 20, 0, 0, 0, 0] 0 .big = .err .tagValueRead := by
  constructor
  · exact ((claim5_inline_and_offset_value
      [0, 1, 0, 2, 0, 0, 0, 3, 0x41, 0x42, 0x43, 0xFF] 0 .big 2 3
      (by decide) (by decide) (by decide)).1 (by decide) _ 12 (by decide)).1
  · exact (((claim5_inline_and_offset_value
      [0, 1, 0, 1, 0, 0, 0, 20, 0, 0, 0, 0] 0 .big 1 20
      (by decide) (by decide) (by decide)).2 0 (by decide) (by decide)).1 (by decide))

/-- A 12-byte little-endian record of an ASCII tag whose two value bytes
`AB` do not end in a NUL. -/
def c8buf : List Nat :=
  [0x01, 0, 0x02, 0, 0x02, 0, 0, 0, 0x41, 0x42, 0xFF, 0xFF]

/-- The tag decoded from `c8buf`: the stored string dropped the final byte
`B` even though it is not a NUL. -/
def c8tag : Tag :=
  { id := 1, type := 2, count := 2, val := [0x41, 0x42], valOffset := 0,
    order := .little, intVals := [], ratVals := [], floatVals := [],
    strVal := [0x41] }

/-- C8 counterexample: `convertVals` removes the last value byte
unconditionally (tiff/tag.go line 140), so for a decoded ASCII tag whose
value does not end in a NUL the stored string is not "the raw value bytes
with one trailing NUL byte removed" — here the non-NUL byte `B` was
removed. -/
theorem claim8_counterexample :
    DecodeTag c8buf 0 .little = .ok (c8tag, 12) ∧
    c8tag.strVal ≠ specStripTrailingNul c8tag.val := by
  exact ⟨by decide, by decide⟩

/-- C8 as amended: for an ASCII-type tag the stored string is the raw value
bytes with the final byte removed, whether or not that byte is a NUL (an
empty value stays empty), the conversion never fails, and the raw bytes
are kept untouched; the display form `nullString` is the printable filter
wrapped in double quotes when that is valid UTF-8, and the empty quoted
string otherwise. -/
theorem claim8_ascii_string_and_display (t : Tag) (ins : List Nat)
    (hty : t.type = 2) (hs : t.strVal = []) :
    (∃ t2, convertVals t = some t2 ∧ t2.strVal = t.val.dropLast ∧
      t2.val = t.val) ∧
    (utf8Valid (0x22 :: (ins.filter isPrint ++ [0x22])) = true →
      nullString ins = 0x22 :: (ins.filter isPrint ++ [0x22])) ∧
    (utf8Valid (0x22 :: (ins.filter isPrint ++ [0x22])) = false →
      nullString ins = [0x22, 0x22]) := by
  refine ⟨?_, ?_, ?_⟩
  · unfold convertVals
    rw [hty]
    refine ⟨_, rfl, ?_, rfl⟩
    by_cases hv : t.val.length > 0
    · rw [if_pos hv]
    · rw [if_neg hv, hs]
      have hnil : t.val = [] := List.length_eq_zero.mp (by omega)
      rw [hnil]
      rfl
  · intro h
    simp only [nullString]
    rw [if_pos h]
  · intro h
    simp only [nullString]
    rw [if_neg (by simp [h])]

/-- An ASCII tag before value conversion, with a non-NUL final value byte. -/
def c8rawTag : Tag :=
  { id := 1, type := 2, count := 2, val := [0x41, 0x42], valOffset := 0,
    order := .little, intVals := [], ratVals := [], floatVals := [],
    strVal := [] }

/-- C8 witness: the amended statement evaluated on the concrete ASCII tag
and on the byte list `A`, BEL, 0xC3 (whose printable filter is not valid
UTF-8). -/
theorem claim8_witness :
    (∃ t2, convertVals c8rawTag = some t2 ∧
      t2.strVal = c8rawTag.val.dropLast ∧ t2.val = c8rawTag.val) ∧
    (utf8Valid (0x22 :: (([0x41, 0x07, 0xC3] : List Nat).filter isPrint ++ [0x22])) = true →
      nullString [0x41, 0x07, 0xC3] =
        0x22 :: (([0x41, 0x07, 0xC3] : List Nat).filter isPrint ++ [0x22])) ∧
    (utf8Valid (0x22 :: (([0x41, 0x07, 0xC3] : List Nat).filter isPrint ++ [0x22])) = false →
      nullString [0x41, 0x07, 0xC3] = [0x22, 0x22]) :=
  claim8_ascii_string_and_display c8rawTag [0x41, 0x07, 0xC3] rfl rfl

/-- C9: if the byte stream contains no `0xFF, marker` pair and ends right
after a `0xFF` byte, the marker-search loop of `newAppSec` reaches that
byte, its one-byte `Peek` fails with an ignored error, and indexing the
empty peek result panics — `newAppSec` does not return an error on this
class of truncated inputs. -/
theorem claim9_stream_ending_in_ff_panics (m : Nat) (s : List Nat)
    (h : hasMarkerPair m (s ++ [0xFF]) = false) :
    appSecSearch m (s ++ [0xFF]) = .panicked := by
  induction s with
  | nil =>
    show appSecSearch m [0xFF] = .panicked
    rfl
  | cons a s2 ih =>
    obtain ⟨n0, rest1, hsp⟩ : ∃ n0 rest1, s2 ++ [0xFF] = n0 :: rest1 := by
      cases s2 with
      | nil => exact ⟨0xFF, [], rfl⟩
      | cons b s3 => exact ⟨b, s3 ++ [0xFF], List.cons_append b s3 [0xFF]⟩
    have hpair : hasMarkerPair m (a :: n0 :: rest1) = false := by
      rw [← hsp]
      exact h
    rw [hasMarkerPair] at hpair
    rw [Bool.or_eq_false_iff] at hpair
    obtain ⟨hc1, hc2⟩ := hpair
    have hcond : ¬(a = 0xFF ∧ n0 = m) := by
      intro hc
      rw [decide_eq_false_iff_not] at hc1
      exact hc1 hc
    have htail : hasMarkerPair m (s2 ++ [0xFF]) = false := by
      rw [hsp]
      exact hc2
    calc appSecSearch m ((a :: s2) ++ [0xFF])
        = appSecSearch m (a :: (n0 :: rest1)) := by
          rw [List.cons_append, hsp]
      _ = if a = 0xFF ∧ n0 = m then DOut.ok rest1
          else appSecSearch m (n0 :: rest1) := rfl
      _ = appSecSearch m (n0 :: rest1) := by rw [if_neg hcond]
      _ = appSecSearch m (s2 ++ [0xFF]) := by rw [hsp]
      _ = .panicked := ih htail

/-- C9 witness: a stream consisting of the single byte `0xFF` makes the
APP1 search panic. -/
theorem claim9_witness : appSecSearch 0xE1 [0xFF] = .panicked :=
  claim9_stream_ending_in_ff_panics 0xE1 [] (by decide)

/-- C10: `nikonV3.Parse` evaluates `m.Val[:8]` before any length check, so
every MakerNote value shorter than 8 bytes panics with a slice-bounds
error; and a value that does start with `Nikon\x00\x02` but is shorter than
14 bytes panics on `m.Val[10:14]` — in neither case does `Parse` return
zero new tags without error. -/
theorem claim10_nikon_short_value_panics (val : List Nat) :
    (val.length < 8 → nikonV3Dispatch val = .panicked) ∧
    (8 ≤ val.length → val.length < 14 → val.take 7 = nikon2Sig →
      nikonV3Dispatch val = .panicked) := by
  constructor
  · intro h
    have hg : goSlice val 0 8 = .panicked := by
      unfold goSlice
      rw [if_neg (by omega)]
    unfold nikonV3Dispatch
    simp only [hg]
  · intro h8 h14 h7
    have hg8 : goSlice val 0 8 = .ok (val.take 8) := by
      unfold goSlice
      rw [if_pos ⟨by omega, by omega⟩]
      simp
    have hne : val.take 8 ≠ nikon1Sig := by
      intro heq
      have e1 : val[6]? = some 1 := by
        have h1 : (List.take 8 val)[6]? = nikon1Sig[6]? := by rw [heq]
        rwa [List.getElem?_take_of_lt (by omega),
          show nikon1Sig[6]? = some 1 by decide] at h1
      have e2 : val[6]? = some 2 := by
        have h1 : (List.take 7 val)[6]? = nikon2Sig[6]? := by rw [h7]
        rwa [List.getElem?_take_of_lt (by omega),
          show nikon2Sig[6]? = some 2 by decide] at h1
      rw [e1] at e2
      simp at e2
    have hg7 : goSlice val 0 7 = .ok (val.take 7) := by
      unfold goSlice
      rw [if_pos ⟨by omega, by omega⟩]
      simp
    have hg14 : goSlice val 10 14 = .panicked := by
      unfold goSlice
      rw [if_neg (by omega)]
    unfold nikonV3Dispatch
    simp only [hg8, hg7, hg14, if_neg hne, if_pos h7]

/-- C10 witness: a 3-byte MakerNote value panics immediately, and a
13-byte value starting with `Nikon\x00\x02` panics on the nested-marker
slice. -/
theorem claim10_witness :
    nikonV3Dispatch [1, 2, 3] = .panicked ∧
    nikonV3Dispatch [0x4E, 0x69, 0x6B, 0x6F, 0x6E, 0x00, 0x02, 0, 0, 0, 0, 0, 0] =
      .panicked :=
  ⟨(claim10_nikon_short_value_panics [1, 2, 3]).1 (by decide),
   (claim10_nikon_short_value_panics _).2 (by decide) (by decide) (by decide)⟩

end Goexif
